import Mathlib

/-!
Verification of the go-filecoin test harness (`testhelpers/commands.go`,
`wallet` backend declarations) against its natural-language specification.

The Go code is shallowly embedded: the pure result-construction logic of each
function is translated into an executable Lean definition, with the outcomes
of external effects (process wait status, HTTP responses, probe results)
passed in as explicit parameters.
-/

/-! ### Go `strings.Contains` -/

/-- Boolean test that `p` is a leading segment of `s` (character lists). -/
def leadsChars : List Char → List Char → Bool
  | [], _ => true
  | _ :: _, [] => false
  | a :: as, b :: bs => a == b && leadsChars as bs

/-- Boolean test that `pat` occurs contiguously inside `s` (character lists). -/
def containsChars (pat : List Char) : List Char → Bool
  | [] => leadsChars pat []
  | c :: t => leadsChars pat (c :: t) || containsChars pat t

/-- Embedding of Go `strings.Contains s pat` (as used by testify's
`Contains`/`NotContains` assertions). -/
def containsSubstr (s pat : String) : Bool :=
  containsChars pat.data s.data

theorem leadsChars_iff (p s : List Char) :
    leadsChars p s = true ↔ ∃ rest, s = p ++ rest := by
  induction p generalizing s with
  | nil => simp [leadsChars]
  | cons a as ih =>
    cases s with
    | nil => simp [leadsChars]
    | cons b bs =>
      simp only [leadsChars, Bool.and_eq_true, beq_iff_eq, ih, List.cons_append,
        List.cons.injEq]
      constructor
      · rintro ⟨hab, rest, hr⟩
        exact ⟨rest, hab.symm, hr⟩
      · rintro ⟨rest, hab, hr⟩
        exact ⟨hab.symm, rest, hr⟩

theorem containsChars_iff (p s : List Char) :
    containsChars p s = true ↔ ∃ pre post, s = pre ++ p ++ post := by
  induction s with
  | nil =>
    simp only [containsChars, leadsChars_iff]
    constructor
    · rintro ⟨rest, hr⟩
      exact ⟨[], rest, by simpa using hr⟩
    · rintro ⟨pre, post, hr⟩
      have h := List.append_eq_nil.mp hr.symm
      have h2 := List.append_eq_nil.mp h.1
      exact ⟨[], by simp [h2.2]⟩
  | cons c t ih =>
    simp only [containsChars, Bool.or_eq_true, leadsChars_iff, ih]
    constructor
    · rintro (⟨rest, hr⟩ | ⟨pre, post, hr⟩)
      · exact ⟨[], rest, by simpa using hr⟩
      · exact ⟨c :: pre, post, by simp [hr]⟩
    · rintro ⟨pre, post, hr⟩
      cases pre with
      | nil => exact Or.inl ⟨post, by simpa using hr⟩
      | cons x xs =>
        right
        have hr' : c = x ∧ t = xs ++ p ++ post := by simpa using hr
        exact ⟨xs, post, hr'.2⟩

theorem containsSubstr_iff (s pat : String) :
    containsSubstr s pat = true ↔ ∃ pre post, s.data = pre ++ pat.data ++ post :=
  containsChars_iff pat.data s.data

/-! ### Command Executor: `TestDaemon.RunWithStdin` result construction

`cmd.Wait()` in Go returns either `nil`, an `*exec.ExitError`, or some other
error; `ctx.Err()` reports whether the command's deadline elapsed.  Both are
external-world outcomes, so the embedding takes them as parameters. -/

/-- Outcome of Go `cmd.Wait()` in `RunWithStdin`. -/
inductive ProcWait where
  /-- `Wait` returned an `*exec.ExitError` with the given error text. -/
  | exitErr (e : String)
  /-- `Wait` returned a non-nil error that is not an `*exec.ExitError`. -/
  | otherErr (e : String)
  /-- `Wait` returned nil. -/
  | success
  deriving DecidableEq

/-- Invocation-level error recorded on an `Output` (the Go `Output.Error`
field).  `deadlineWrap` embeds `errors.Wrapf(err, "context deadline exceeded
for command: %q", strings.Join(finalArgs, " "))`, keeping the wrapped inner
error and the final argument vector. -/
inductive InvocError where
  | deadlineWrap (inner : String) (finalArgs : List String)
  | plain (e : String)
  deriving DecidableEq

/-- Embedding of the Go `Output` struct fields relevant to the result of one
CLI invocation (a `CommandResult` in the specification's data model). -/
structure CommandResult where
  Args : List String
  Code : Nat
  Error : Option InvocError
  stdout : String
  stderr : String
  deriving DecidableEq

/-- Embedding of the argument clean-up at the top of `RunWithStdin`:
`if len(args) == 1 { args = strings.Split(args[0], " ") }`. -/
def tokenize (args : List String) : List String :=
  match args with
  | [a] => a.splitOn " "
  | _ => args

/-- Embedding of the final argument vector
`append(args, "--repodir="+td.repoDir, "--cmdapiaddr="+td.cmdAddr)`. -/
def finalArgsOf (repoDir cmdAddr : String) (args : List String) : List String :=
  args ++ ["--repodir=" ++ repoDir, "--cmdapiaddr=" ++ cmdAddr]

/-- Embedding of `TestDaemon.RunWithStdin`'s construction of the returned
`Output`.  `stdoutBytes`/`stderrBytes` are the fully captured streams, `wait`
is the outcome of `cmd.Wait()`, and `deadlineHit` says whether
`ctx.Err() == context.DeadlineExceeded`.  The Go type switch is mirrored
exactly: an exit error sets `Code = 1` and records a wrapped error only when
the deadline elapsed; a nil wait leaves the zero values (`Code = 0`,
`Error = nil`); any other wait error is recorded with `Code` left at 0. -/
def runWithStdin (repoDir cmdAddr : String) (args : List String)
    (stdoutBytes stderrBytes : String) (wait : ProcWait) (deadlineHit : Bool) :
    CommandResult :=
  let args := tokenize args
  let finalArgs := finalArgsOf repoDir cmdAddr args
  let base : CommandResult :=
    { Args := args, Code := 0, Error := none,
      stdout := stdoutBytes, stderr := stderrBytes }
  match wait with
  | .exitErr e =>
      { base with
        Code := 1,
        Error := if deadlineHit then some (.deadlineWrap e finalArgs) else none }
  | .otherErr e => { base with Error := some (.plain e) }
  | .success => base

/-- Embedding of `Output.AssertSuccess`: the check passes exactly when every
`require` in the body passes. -/
def assertSuccess (o : CommandResult) : Bool :=
  decide (o.Error = none) && (o.Code == 0)
    && !(containsSubstr o.stderr "CRITICAL")
    && !(containsSubstr o.stderr "ERROR")
    && !(containsSubstr o.stderr "WARNING")
    && !(containsSubstr o.stderr "Error:")

/-- Embedding of `Output.AssertFail err`: the check passes exactly when every
`require` in the body passes (note the leading `require.NoError`). -/
def assertFail (o : CommandResult) (err : String) : Bool :=
  decide (o.Error = none) && (o.Code == 1) && (o.stdout == "")
    && containsSubstr o.stderr err

/-! ### Node Supervisor: shutdown paths

`Shutdown`, `ShutdownSuccess` and `ShutdownEasy` are sequences of effects on
the daemon process and filesystem.  Each function is embedded as the list of
steps it performs, parameterized by the outcome of `process.Process.Signal`
(`signalFails`) and the daemon's captured stderr text. -/

/-- Unix signal sent to the daemon process. -/
inductive Sig where
  | SIGTERM
  | SIGINT
  deriving DecidableEq

/-- One observable step of a shutdown routine. -/
inductive ShutdownStep where
  /-- `process.Process.Signal s` was issued. -/
  | signal (s : Sig)
  /-- `td.test.Fatalf`: the test is aborted. -/
  | fatal (msg : String)
  /-- Go `panic` with the given message. -/
  | panicked (msg : String)
  /-- `os.RemoveAll(dir)`: the repository directory is deleted. -/
  | removeAll (dir : String)
  /-- `td.ReadStderr()` was called. -/
  | readStderr
  /-- a (non-aborting) testify `assert` whose outcome is `ok`. -/
  | check (ok : Bool)
  deriving DecidableEq

/-- Embedding of `TestDaemon.Shutdown`: send SIGTERM; on signal failure dump
stderr and abort the test; panic when no repo dir is set; otherwise delete the
repository directory. -/
def Shutdown (repoDir : String) (signalFails : Bool) : List ShutdownStep :=
  if signalFails then
    [.signal .SIGTERM, .readStderr, .fatal "Failed to kill daemon"]
  else if repoDir = "" then
    [.signal .SIGTERM, .panicked "testdaemon had no repodir set"]
  else
    [.signal .SIGTERM, .removeAll repoDir]

/-- Embedding of `TestDaemon.ShutdownSuccess`: send SIGTERM, assert no signal
error, read stderr, re-assert no signal error, and assert stderr carries no
severity marker.  No repository deletion, no repo-dir check. -/
def ShutdownSuccess (signalFails : Bool) (stderrText : String) :
    List ShutdownStep :=
  [.signal .SIGTERM, .check (!signalFails), .readStderr, .check (!signalFails),
   .check (!containsSubstr stderrText "CRITICAL"),
   .check (!containsSubstr stderrText "ERROR"),
   .check (!containsSubstr stderrText "WARNING")]

/-- Embedding of `TestDaemon.ShutdownEasy`: send SIGINT, assert no signal
error, read stderr, re-assert no signal error.  No repository deletion, no
repo-dir check. -/
def ShutdownEasy (signalFails : Bool) : List ShutdownStep :=
  [.signal .SIGINT, .check (!signalFails), .readStderr, .check (!signalFails)]

/-- Whether a shutdown trace deletes some directory. -/
def deletesRepo (steps : List ShutdownStep) : Bool :=
  steps.any fun st =>
    match st with
    | .removeAll _ => true
    | _ => false

/-- Whether a shutdown trace panics. -/
def panics (steps : List ShutdownStep) : Bool :=
  steps.any fun st =>
    match st with
    | .panicked _ => true
    | _ => false

/-! ### Liveness Prober: `WaitForAPI` and `tryAPICheck` -/

/-- Error message returned by `WaitForAPI` after exhausting its attempts
(verbatim from the Go source). -/
def apiTimeoutMsg : String :=
  "filecoin node failed to come online in given time period (20 seconds)"

/-- Embedding of the loop body of `TestDaemon.WaitForAPI`: `probe i` is the
result of the `i`-th `tryAPICheck` call (`none` = success, `some e` = the
probe's error, which the loop discards).  `fuel` counts the remaining
attempts; on success the index of the succeeding attempt is returned. -/
def waitForAPIFrom (probe : Nat → Option String) : Nat → Nat → Except String Nat
  | _, 0 => .error apiTimeoutMsg
  | i, fuel + 1 =>
    match probe i with
    | none => .ok i
    | some _ => waitForAPIFrom probe (i + 1) fuel

/-- Embedding of `TestDaemon.WaitForAPI`: 100 attempts starting at attempt 0
(each failed attempt is followed by a 100ms sleep in the Go code). -/
def waitForAPI (probe : Nat → Option String) : Except String Nat :=
  waitForAPIFrom probe 0 100

/-- Outcome of the HTTP GET plus JSON decode in `tryAPICheck`, passed in as
the external-world response to a given URL. -/
inductive APIResponse where
  /-- `http.Get` itself returned an error. -/
  | getErr (e : String)
  /-- the body could not be decoded as a JSON object. -/
  | badBody (e : String)
  /-- the body decoded to a JSON object with the given keys. -/
  | object (keys : List String)
  deriving DecidableEq

/-- URL probed by `tryAPICheck`:
`fmt.Sprintf("http://127.0.0.1%s/api/id", td.cmdAddr)`. -/
def apiURL (cmdAddr : String) : String :=
  "http://127.0.0.1" ++ cmdAddr ++ "/api/id"

/-- Embedding of `tryAPICheck`: `http` maps a URL to the response observed
there; the probe succeeds (returns `none`) only on a decodable object
containing an `ID` key, and otherwise returns the corresponding error. -/
def tryAPICheck (cmdAddr : String) (http : String → APIResponse) :
    Option String :=
  match http (apiURL cmdAddr) with
  | .getErr e => some e
  | .badBody e => some ("liveness check failed: " ++ e)
  | .object keys =>
    if keys.contains "ID" then none
    else some "liveness check failed: ID field not present in output"

/-! ### HeadState: `types.SortedCidSet`

The `types.SortedCidSet` implementation belongs to this repository but is not
among the given source files; only its caller (`MustHaveChainHeadBy`) is.
It is therefore modelled from the spec.  CIDs are modelled as naturals. -/

/-- Modelled from the spec: `types.SortedCidSet` is missing from the given
sources.  Per the spec, a HeadState is "an order-independent set of block
identifiers"; the set is kept as a canonical sorted, duplicate-free list, and
`Add` inserts a CID preserving that canonical form. -/
def insertSorted (c : Nat) : List Nat → List Nat
  | [] => [c]
  | x :: xs =>
    if c < x then c :: x :: xs
    else if c = x then x :: xs
    else x :: insertSorted c xs

/-- `SortedCidSet.Add` folded over a list of CIDs, starting from the given
set (the loop `for _, blk := range blks { set.Add(blk.Cid()) }`). -/
def addAllCids (s : List Nat) (l : List Nat) : List Nat :=
  l.foldl (fun t c => insertSorted c t) s

/-- The HeadState built from the blocks of a tipset: fold `Add` over the
block CIDs starting from the empty set. -/
def fromCids (l : List Nat) : List Nat :=
  addAllCids [] l

/-- Modelled from the spec: `types.SortedCidSet.Equals` is missing from the
given sources.  Per the spec, "Equality between two HeadStates is set
equality"; on canonical sorted duplicate-free lists this is equality of the
representations. -/
def cidSetEquals (s t : List Nat) : Bool :=
  s == t

/-! ### Convergence Coordinator: `TestDaemon.MustHaveChainHeadBy`

Each node's evolving head is an oracle from poll instants to the CID list of
its head tipset.  The Go code reads the reference's head exactly once, before
spawning the per-peer pollers; each poller re-reads its own peer's head every
100ms until it equals the reference's snapshot, and the whole check fails
when the `wait` deadline elapses first.  `budget` is the number of 100ms poll
instants available to each peer before the deadline. -/

/-- Embedding of `MustHaveChainHeadBy`: `true` = all peers converged and the
function returns normally (no value); `false` = the deadline elapsed and
`td.test.Fatal("Timeout waiting for chains to sync")` fires. -/
def mustHaveChainHeadBy (budget : Nat) (refHead : Nat → List Nat)
    (peers : List (Nat → List Nat)) : Bool :=
  let expHead := fromCids (refHead 0)
  peers.all fun p =>
    (List.range (budget + 1)).any fun t => cidSetEquals (fromCids (p t)) expHead

/-! ### `RunCommand` / `RunInit` -/

/-- The child-process invocation built by `exec.Command`: binary plus
argument vector. -/
structure SpawnCall where
  bin : String
  argv : List String
  deriving DecidableEq

/-- Embedding of `RunCommand`: note the Go body spawns
`exec.Command(filecoinBin, append([]string{"init"}, opts...)...)`,
hard-coding `"init"` and never using the `cmd` parameter. -/
def RunCommand (bin cmd : String) (opts : List String) : SpawnCall :=
  ⟨bin, "init" :: opts⟩

/-- Embedding of `RunInit`: `return RunCommand("init", opts...)`. -/
def RunInit (bin : String) (opts : List String) : SpawnCall :=
  RunCommand bin "init" opts

/-! ### Helper lemmas -/

theorem insertSorted_comm (a b : Nat) (s : List Nat) :
    insertSorted a (insertSorted b s) = insertSorted b (insertSorted a s) := by
  induction s with
  | nil =>
    simp only [insertSorted]
    split_ifs <;> subst_vars <;> first | rfl | omega
  | cons x xs ih =>
    simp only [insertSorted]
    split_ifs <;> subst_vars <;>
      simp only [insertSorted] <;> split_ifs <;> subst_vars <;>
      first | rfl | omega | rw [ih]

theorem addAllCids_perm {l₁ l₂ : List Nat} (p : l₁.Perm l₂) (s : List Nat) :
    addAllCids s l₁ = addAllCids s l₂ := by
  induction p generalizing s with
  | nil => rfl
  | cons x _p ih =>
    simp only [addAllCids, List.foldl_cons] at *
    exact ih _
  | swap x y l =>
    simp only [addAllCids, List.foldl_cons]
    rw [insertSorted_comm]
  | trans _p _q ih₁ ih₂ =>
    exact (ih₁ s).trans (ih₂ s)

theorem waitForAPIFrom_congr (p q : Nat → Option String)
    (h : ∀ i, (p i).isSome = (q i).isSome) :
    ∀ i fuel, waitForAPIFrom p i fuel = waitForAPIFrom q i fuel := by
  intro i fuel
  induction fuel generalizing i with
  | zero => rfl
  | succ n ih =>
    simp only [waitForAPIFrom]
    cases hp : p i with
    | none =>
      cases hq : q i with
      | none => rfl
      | some e =>
        have hs := h i
        rw [hp, hq] at hs
        simp at hs
    | some e =>
      cases hq : q i with
      | none =>
        have hs := h i
        rw [hp, hq] at hs
        simp at hs
      | some e₂ => exact ih (i + 1)

theorem containsSubstr_eq_false_iff (s m : String) :
    containsSubstr s m = false ↔
      ¬ ∃ pre post, s.data = pre ++ m.data ++ post := by
  rw [← containsSubstr_iff s m]
  cases containsSubstr s m <;> simp

/-! ### Claim theorems -/

/-- C1 (counterexample): the claim "exit code 0 implies the recorded
invocation error is nil" fails on the code: when `cmd.Wait()` returns a
non-nil error that is not an `*exec.ExitError`, the `default` branch of the
type switch records the error while `Code` keeps its zero value 0. -/
theorem C1_counterexample :
    (runWithStdin "repo" ":3453" ["actor", "ls"] "" ""
        (.otherErr "read failure") false).Code = 0 ∧
    (runWithStdin "repo" ":3453" ["actor", "ls"] "" ""
        (.otherErr "read failure") false).Error =
      some (.plain "read failure") := by
  exact ⟨rfl, rfl⟩

/-- C1 (amended): for every command result whose `cmd.Wait()` outcome was nil
or an `*exec.ExitError` (i.e. excluding the `default` branch of the type
switch), an exit code of 0 implies that no invocation-level error was
recorded. -/
theorem C1_code_zero_no_error (repoDir cmdAddr : String) (args : List String)
    (so se : String) (wait : ProcWait) (dl : Bool)
    (h : ∀ e, wait ≠ ProcWait.otherErr e) :
    (runWithStdin repoDir cmdAddr args so se wait dl).Code = 0 →
    (runWithStdin repoDir cmdAddr args so se wait dl).Error = none := by
  cases wait with
  | exitErr e =>
    intro hc
    exact absurd hc (by simp [runWithStdin])
  | otherErr e => exact absurd rfl (h e)
  | success => intro _; rfl

/-- C1 (witness): the amended theorem applied to a normally-exiting command. -/
theorem C1_witness :
    (runWithStdin "repo" ":3453" ["actor", "ls"] "out" ""
        ProcWait.success false).Error = none :=
  C1_code_zero_no_error "repo" ":3453" ["actor", "ls"] "out" ""
    ProcWait.success false (fun _ h => ProcWait.noConfusion h) rfl

/-- C2 (code bug): `WaitForAPI` makes at most 100 attempts (spaced 100ms in
the Go code, a ≈10 second budget), returns success at the first succeeding
probe with no further attempts — but after exhausting all attempts the error
it returns names "(20 seconds)", not the actual ≈10 second budget: the
message contradicts the loop it reports on.  Probes succeeding only at
attempt index 100 or later are never observed. -/
theorem C2_probe_budget_and_message :
    waitForAPI (fun _ => some "connection refused") = .error apiTimeoutMsg ∧
    containsSubstr apiTimeoutMsg "20 seconds" = true ∧
    containsSubstr apiTimeoutMsg "10 seconds" = false ∧
    waitForAPI (fun _ => none) = .ok 0 ∧
    waitForAPI (fun i => if i = 99 then none else some "refused") = .ok 99 ∧
    waitForAPI (fun i => if i = 100 then none else some "refused") =
      .error apiTimeoutMsg := by
  refine ⟨rfl, by decide, by decide, rfl, rfl, rfl⟩

/-- C3 (counterexample): the claim "every shutdown path that terminates the
process is always followed by deletion of the repository directory" fails:
`ShutdownEasy` (graceful SIGINT) and `ShutdownSuccess` (SIGTERM) terminate
the process but contain no `os.RemoveAll` step, and `ShutdownSuccess` does
not fail loudly on an unconfigured repository directory either. -/
theorem C3_counterexample :
    deletesRepo (ShutdownEasy false) = false ∧
    (ShutdownEasy false).head? = some (.signal .SIGINT) ∧
    deletesRepo (ShutdownSuccess false "") = false ∧
    panics (ShutdownSuccess false "") = false ∧
    (ShutdownSuccess false "").head? = some (.signal .SIGTERM) := by
  exact ⟨rfl, rfl, rfl, rfl, rfl⟩

/-- C3 (amended): only `Shutdown` (forced SIGTERM path) deletes the
repository directory after signalling, and it alone panics when the
repository directory is unset; `ShutdownSuccess` (SIGTERM) and
`ShutdownEasy` (SIGINT) terminate the process without deleting the
repository directory or checking that it is configured. -/
theorem C3_shutdown_repo_deletion (repoDir : String) (h : repoDir ≠ "")
    (stderrText : String) :
    Shutdown repoDir false = [.signal .SIGTERM, .removeAll repoDir] ∧
    deletesRepo (Shutdown repoDir false) = true ∧
    panics (Shutdown "" false) = true ∧
    deletesRepo (ShutdownSuccess false stderrText) = false ∧
    deletesRepo (ShutdownEasy false) = false := by
  refine ⟨by simp [Shutdown, h], by simp [Shutdown, h, deletesRepo], rfl, rfl, rfl⟩

/-- C3 (witness): the amended theorem applied to a configured daemon. -/
theorem C3_witness :
    deletesRepo (Shutdown "/tmp/go-fil-test" false) = true :=
  (C3_shutdown_repo_deletion "/tmp/go-fil-test" (by decide) "").2.1

/-- C4: when the deadline elapses before the spawned process exits (the
context kills the process, so `cmd.Wait()` yields an `*exec.ExitError` while
`ctx.Err() == context.DeadlineExceeded`), the result records exit code 1 and
an invocation error wrapping the process's own termination error in a
deadline-exceeded message naming the final command line. -/
theorem C4_deadline_exceeded (repoDir cmdAddr : String) (args : List String)
    (so se e : String) :
    (runWithStdin repoDir cmdAddr args so se (.exitErr e) true).Code = 1 ∧
    (runWithStdin repoDir cmdAddr args so se (.exitErr e) true).Error =
      some (.deadlineWrap e (finalArgsOf repoDir cmdAddr (tokenize args))) := by
  exact ⟨rfl, rfl⟩

/-- C5: `AssertSuccess` passes exactly when the invocation error is nil, the
exit code is 0, and the captured stderr text contains none of the forbidden
severity markers CRITICAL, ERROR, WARNING, "Error:".  (The descriptive
reporting of the captured streams on failure is test-log output, outside the
embedded result logic.) -/
theorem C5_assertSuccess_iff (o : CommandResult) :
    assertSuccess o = true ↔
      (o.Error = none ∧ o.Code = 0 ∧
       ¬ (∃ pre post, o.stderr.data = pre ++ "CRITICAL".data ++ post) ∧
       ¬ (∃ pre post, o.stderr.data = pre ++ "ERROR".data ++ post) ∧
       ¬ (∃ pre post, o.stderr.data = pre ++ "WARNING".data ++ post) ∧
       ¬ (∃ pre post, o.stderr.data = pre ++ "Error:".data ++ post)) := by
  simp only [assertSuccess, Bool.and_eq_true, decide_eq_true_eq, beq_iff_eq,
    Bool.not_eq_true', containsSubstr_eq_false_iff]
  tauto

/-- C6 (counterexample): the claim "AssertFail passes exactly when exit code
is 1, stdout is empty, and stderr contains the expected substring" fails: a
deadline-exceeded run has exit code 1, empty stdout and matching stderr, yet
`AssertFail`'s leading `require.NoError` rejects it.  Moreover a failed
command (nonzero exit) can carry nonempty stdout: nothing in the executor
clears it. -/
theorem C6_counterexample :
    (assertFail
        (runWithStdin "repo" ":3453" ["client", "import"] "" "boom: myerr"
          (.exitErr "killed") true) "myerr" = false ∧
     (runWithStdin "repo" ":3453" ["client", "import"] "" "boom: myerr"
          (.exitErr "killed") true).Code = 1 ∧
     (runWithStdin "repo" ":3453" ["client", "import"] "" "boom: myerr"
          (.exitErr "killed") true).stdout = "" ∧
     containsSubstr
        (runWithStdin "repo" ":3453" ["client", "import"] "" "boom: myerr"
          (.exitErr "killed") true).stderr "myerr" = true) ∧
    ((runWithStdin "repo" ":3453" ["client", "import"] "junk" ""
          (.exitErr "exit status 1") false).Code = 1 ∧
     (runWithStdin "repo" ":3453" ["client", "import"] "junk" ""
          (.exitErr "exit status 1") false).stdout ≠ "") := by
  refine ⟨⟨rfl, rfl, rfl, by decide⟩, rfl, by decide⟩

/-- C6 (amended): `AssertFail` (and therefore `RunFail`) passes exactly when
the invocation error is nil, the exit code is 1, the captured stdout is
empty, and the captured stderr contains the expected substring; every
command whose process exits with an `*exec.ExitError` has its exit code
recorded as 1 (emptiness of stdout for failing commands is a convention
checked only by `AssertFail` itself, not guaranteed by the executor). -/
theorem C6_assertFail_iff :
    (∀ (o : CommandResult) (e : String),
        assertFail o e = true ↔
          (o.Error = none ∧ o.Code = 1 ∧ o.stdout = "" ∧
           ∃ pre post, o.stderr.data = pre ++ e.data ++ post)) ∧
    (∀ (repoDir cmdAddr : String) (args : List String) (so se ee : String)
        (dl : Bool),
        (runWithStdin repoDir cmdAddr args so se (.exitErr ee) dl).Code = 1) := by
  constructor
  · intro o e
    simp only [assertFail, Bool.and_eq_true, decide_eq_true_eq, beq_iff_eq,
      containsSubstr_iff]
    tauto
  · intro repoDir cmdAddr args so se ee dl
    rfl

/-- C7: `MustHaveChainHeadBy` reads the reference's head exactly once, before
any peer polling starts: its outcome depends only on the reference oracle's
value at instant 0, so two reference histories agreeing there are
indistinguishable; and when every peer already matches the snapshot the
coordinator returns normally (`true`, no value) rather than timing out. -/
theorem C7_reference_head_snapshot (budget : Nat) (rA rB : Nat → List Nat)
    (peers : List (Nat → List Nat)) (h : rA 0 = rB 0) :
    mustHaveChainHeadBy budget rA peers = mustHaveChainHeadBy budget rB peers ∧
    ((∀ p ∈ peers, fromCids (p 0) = fromCids (rA 0)) →
      mustHaveChainHeadBy budget rA peers = true) := by
  constructor
  · simp only [mustHaveChainHeadBy, h]
  · intro hall
    simp only [mustHaveChainHeadBy, List.all_eq_true]
    intro p hp
    refine List.any_eq_true.mpr ⟨0, List.mem_range.mpr (Nat.succ_pos _), ?_⟩
    simp [cidSetEquals, hall p hp]

/-- C7 (witness): a reference that keeps advancing after instant 0 yields the
same verdict as one frozen at the snapshot. -/
theorem C7_witness :
    mustHaveChainHeadBy 3 (fun _ => [5, 7])
        [fun t => if t = 2 then [7, 5] else [9]] =
      mustHaveChainHeadBy 3 (fun t => if t = 0 then [5, 7] else [11])
        [fun t => if t = 2 then [7, 5] else [9]] :=
  (C7_reference_head_snapshot 3 (fun _ => [5, 7])
    (fun t => if t = 0 then [5, 7] else [11])
    [fun t => if t = 2 then [7, 5] else [9]] rfl).1

/-- C8: HeadState equality is set equality over block CIDs: building a
`SortedCidSet` from any permutation of the same CIDs yields sets for which
`Equals` is true, independent of the order in which the blocks were listed. -/
theorem C8_headstate_perm (l₁ l₂ : List Nat) (h : l₁.Perm l₂) :
    cidSetEquals (fromCids l₁) (fromCids l₂) = true := by
  simp only [cidSetEquals, fromCids, beq_iff_eq]
  exact addAllCids_perm h []

/-- C8 (witness): two orderings of the same three CIDs compare equal. -/
theorem C8_witness :
    cidSetEquals (fromCids [3, 1, 2]) (fromCids [1, 2, 3]) = true :=
  C8_headstate_perm [3, 1, 2] [1, 2, 3] (by decide)

/-- C9: a single probe succeeds (returns nil) exactly when the GET of
`http://127.0.0.1<cmdapiaddr>/api/id` yields a body decoding to a JSON
object with an `ID` key — a request error, a non-decodable body, or a
missing `ID` key each make the probe return an error; and the prober
swallows the content of probe errors, its behavior depending only on which
attempts succeed. -/
theorem C9_probe_iff :
    (∀ (cmdAddr : String) (http : String → APIResponse),
        tryAPICheck cmdAddr http = none ↔
          ∃ keys, http (apiURL cmdAddr) = APIResponse.object keys ∧
            keys.contains "ID" = true) ∧
    (∀ p q, (∀ i, (p i).isSome = (q i).isSome) → waitForAPI p = waitForAPI q) := by
  constructor
  · intro cmdAddr http
    cases hr : http (apiURL cmdAddr) with
    | getErr e => simp [tryAPICheck, hr]
    | badBody e => simp [tryAPICheck, hr]
    | object keys =>
      by_cases hk : keys.contains "ID" = true
      · simp [tryAPICheck, hr, hk]
      · simp [tryAPICheck, hr, hk]
  · intro p q h
    exact waitForAPIFrom_congr p q h 0 100

/-- C9 (witness): a well-formed identity response succeeds, and two probe
histories failing at the same attempts are treated alike regardless of the
error text. -/
theorem C9_witness :
    tryAPICheck ":3453" (fun _ => APIResponse.object ["ID", "Addresses"]) =
        none ∧
    waitForAPI (fun _ => some "connection refused") =
      waitForAPI (fun _ => some "liveness check failed: EOF") :=
  ⟨(C9_probe_iff.1 ":3453" (fun _ => APIResponse.object ["ID", "Addresses"])).mpr
      ⟨["ID", "Addresses"], rfl, by decide⟩,
   C9_probe_iff.2 _ _ (fun _ => rfl)⟩

/-- C10: `RunCommand` ignores its `cmd` parameter: for every command name and
option list it spawns the filecoin binary with `"init"` as the first
argument followed by the options, so `RunCommand cmd opts` is observably
identical to `RunInit opts`. -/
theorem C10_runCommand_ignores_cmd (bin cmd : String) (opts : List String) :
    RunCommand bin cmd opts = RunInit bin opts ∧
    (RunCommand bin cmd opts).argv = "init" :: opts :=
  ⟨rfl, rfl⟩
